import Mathlib

/-!
# Verification of the salt repository fragment

This development embeds the behavior described by the repository's
specification and source:

* the password-hash backend selector (`salt.utils.pycrypto`): its source is
  not part of this fragment (only its unit tests are), so the selector and
  its two backends are modelled from the specification, with the unit tests
  (`src/tests/pytests/unit/utils/test_pycrypto.py`) fixing observable
  details such as the salt-warning message;
* the grains state module (`src/salt/states/grains.py`): `present`,
  `make_hashable` and `list_present` are embedded directly from the source,
  with the injected `__salt__`/`__opts__`/`__context__` interfaces modelled
  as an explicit context record and store mutations recorded as an
  explicit operation trace.
-/

deriving instance DecidableEq for Except

namespace Salt

namespace Pycrypto

/-- The two interchangeable hashing backend providers: the native
crypt-style library and the pure-implementation (passlib) library. -/
inductive Backend
  | native
  | passlib
deriving DecidableEq, Repr

/-- Invocation errors surfaced by `gen_hash` (Python `SaltInvocationError`).
`unsupportedAlgorithm` names the algorithm that no available backend
supports; `noBackendAvailable` indicates no hashing capability is present. -/
inductive SaltInvocationError
  | unsupportedAlgorithm (algorithm : String)
  | noBackendAvailable
deriving DecidableEq, Repr

/-- Modelled from the spec: the pure-implementation (passlib) backend's
supported-method list, ordered, first element is the default
(`{sha512, sha256, blowfish, md5, crypt}`). -/
def known_methods : List String := ["sha512", "sha256", "blowfish", "md5", "crypt"]

/-- Modelled from the spec: process-wide backend availability facts and the
two backend providers (supported-method list of the native backend, and the
hash function of each backend, taking password, salt and algorithm). -/
structure CryptoHost where
  HAS_CRYPT : Bool
  HAS_PASSLIB : Bool
  methods : List String
  cryptHash : String → String → String → String
  passlibHash : String → String → String → String

/-- Modelled from the spec: the secure random source, abstracted as a draw
oracle for password characters plus the salt a backend generates when the
caller supplies none. -/
structure RandomSource where
  draw : Nat → Nat
  randomSalt : String

/-- The denylisted symbol characters that `secure_password` must exclude. -/
def denylistedChars : List Char :=
  ['!', '@', '#', '$', '%', '^', '&', '*', '(', ')', '_', '=', '+']

def asciiLetters : List Char :=
  "abcdefghijklmnopqrstuvwxyzABCDEFGHIJKLMNOPQRSTUVWXYZ".data

def asciiDigits : List Char := "0123456789".data

/-- The printable ASCII symbol characters (codes 33-126, non-alphanumeric). -/
def asciiSymbols : List Char :=
  ((List.range 94).map (fun i => Char.ofNat (33 + i))).filter (fun c => !c.isAlphanum)

/-- The character set `secure_password` draws from: alphanumeric plus
symbols, excluding the denylisted symbol characters. -/
def passwordChars : List Char :=
  (asciiLetters ++ asciiDigits ++ asciiSymbols).filter
    (fun c => !denylistedChars.contains c)

/-- The fixed length of a generated password. -/
def passwordLength : Nat := 20

/-- Modelled from the spec: `secure_password` produces a random string of
fixed length drawn from an alphanumeric-plus-symbol character set excluding
the denylisted symbols; the cryptographically secure random source is
abstracted as the `draw` oracle. -/
def secure_password (draw : Nat → Nat) : String :=
  String.mk ((List.range passwordLength).map
    (fun i => passwordChars.getD (draw i % passwordChars.length) 'x'))

/-- Whether a requested algorithm is acceptable for a backend's
supported-method list: no algorithm requested, or the requested one is in
the list. -/
def algoSupported (algorithm : Option String) (methodList : List String) : Bool :=
  match algorithm with
  | none => true
  | some a => methodList.contains a

/-- Modelled from the spec: the algorithm defaults to the first entry of
whichever backend's supported-method list is active (the native backend's
list when that library is available, otherwise the passlib list). -/
def resolveAlgorithm (host : CryptoHost) (algorithm : Option String) : String :=
  match algorithm with
  | some a => a
  | none =>
      if host.HAS_CRYPT then host.methods.headD "sha512"
      else known_methods.headD "sha512"

/-- The warning-level diagnostic for a malformed legacy-crypt salt, fixed by
the unit test `test_gen_hash_crypt_warning`. -/
def cryptSaltWarning : String := "Hash salt is too long for 'crypt' hash."

/-- Modelled from the spec: a supplied salt is malformed for the legacy
`crypt` scheme when it is longer than the scheme's two characters. -/
def saltTooLongForCrypt (crypt_salt : Option String) : Bool :=
  match crypt_salt with
  | some s => 2 < s.length
  | none => false

/-- The observable outcome of one `gen_hash` call: the warning-level
diagnostics emitted, the trace of backend hash invocations, and the returned
hash (tagged with the backend that produced it) or the raised error. -/
structure GenHashOut where
  warnings : List String
  invoked : List Backend
  result : Except SaltInvocationError (Backend × String)
deriving DecidableEq, Repr

/-- Modelled from the spec (§4.1): `gen_hash` fills in a generated password
and salt for omitted arguments, warns on a malformed legacy-crypt salt, and
selects a backend by the policy: native when available and the requested
algorithm (or none) is in its supported set; else passlib under the same
condition on its set; else an invocation error naming the requested
algorithm, or indicating no hashing capability when none was requested and
no backend is available. -/
def gen_hash (host : CryptoHost) (rnd : RandomSource)
    (crypt_salt password algorithm : Option String) : GenHashOut :=
  let pw := password.getD (secure_password rnd.draw)
  let algo := resolveAlgorithm host algorithm
  let warns :=
    if algo == "crypt" && saltTooLongForCrypt crypt_salt then [cryptSaltWarning] else []
  let effSalt := crypt_salt.getD rnd.randomSalt
  if host.HAS_CRYPT && algoSupported algorithm host.methods then
    { warnings := warns, invoked := [Backend.native],
      result := Except.ok (Backend.native, host.cryptHash pw effSalt algo) }
  else if host.HAS_PASSLIB && algoSupported algorithm known_methods then
    { warnings := warns, invoked := [Backend.passlib],
      result := Except.ok (Backend.passlib, host.passlibHash pw effSalt algo) }
  else
    match algorithm with
    | some a =>
        { warnings := warns, invoked := [],
          result := Except.error (SaltInvocationError.unsupportedAlgorithm a) }
    | none =>
        { warnings := warns, invoked := [],
          result := Except.error SaltInvocationError.noBackendAvailable }

/-- The backend that produced the returned hash, when the call succeeded. -/
def usedBackend (o : GenHashOut) : Option Backend :=
  match o.result with
  | Except.ok (b, _) => some b
  | Except.error _ => none

/-- The invocation error raised by the call, when it failed. -/
def errOf (o : GenHashOut) : Option SaltInvocationError :=
  match o.result with
  | Except.ok _ => none
  | Except.error e => some e

/-- The selection policy finds some backend for the request. -/
def selectionOk (host : CryptoHost) (algorithm : Option String) : Prop :=
  (host.HAS_CRYPT = true ∧ algoSupported algorithm host.methods = true) ∨
    (host.HAS_PASSLIB = true ∧ algoSupported algorithm known_methods = true)

instance (host : CryptoHost) (algorithm : Option String) :
    Decidable (selectionOk host algorithm) := by
  unfold selectionOk; infer_instance

/-- The first two characters of a salt, as kept by the legacy `crypt`
scheme. -/
def cryptTake2 (s : String) : String := String.mk (s.data.take 2)

/-- Modelled from the spec (§3 HashResult): the scheme id of the crypt-style
result format. -/
def algoId (algorithm : String) : String :=
  if algorithm = "sha512" then "6"
  else if algorithm = "sha256" then "5"
  else if algorithm = "blowfish" then "2b"
  else "1"

/-- Modelled from the spec: a backend hash function following the HashResult
format `$<id>$<salt-params>$<digest>` for crypt-style schemes; for the legacy
`crypt` scheme the result is the (possibly truncated) two-character salt
followed by the raw digest. -/
def modelBackendHash (digest : String → String → String → String)
    (password salt algorithm : String) : String :=
  if algorithm = "crypt" then
    let s := cryptTake2 salt
    s ++ digest password s algorithm
  else
    "$" ++ algoId algorithm ++ "$" ++ salt ++ "$" ++ digest password salt algorithm

/-- The salt actually consumed by the modelled backend for a scheme: the
legacy `crypt` scheme truncates to two characters, crypt-style schemes use
the salt as given. -/
def modelSaltUsed (algorithm salt : String) : String :=
  if algorithm = "crypt" then cryptTake2 salt else salt

/-! ### String helper lemmas -/

theorem string_data_append (a b : String) : (a ++ b).data = a.data ++ b.data := rfl

theorem string_length_data (s : String) : s.length = s.data.length := rfl

theorem string_eq_of_data_eq {a b : String} (h : a.data = b.data) : a = b := by
  cases a; cases b; exact congrArg String.mk h

theorem string_append_assoc (a b c : String) : a ++ b ++ c = a ++ (b ++ c) :=
  string_eq_of_data_eq (by simp [string_data_append])

theorem string_append_cancel_left {a b c : String} (h : a ++ b = a ++ c) : b = c := by
  have hd := congrArg String.data h
  rw [string_data_append, string_data_append] at hd
  exact string_eq_of_data_eq (List.append_cancel_left hd)

theorem string_length_append (a b : String) : (a ++ b).length = a.length + b.length := by
  rw [string_length_data, string_data_append, List.length_append]; rfl

theorem string_append_ne_append {s₁ s₂ d₁ d₂ : String}
    (hne : s₁ ≠ s₂) (hlen : d₁.length = d₂.length) : s₁ ++ d₁ ≠ s₂ ++ d₂ := by
  intro he
  have hdata := congrArg String.data he
  rw [string_data_append, string_data_append] at hdata
  have hdl : d₁.data.length = d₂.data.length := hlen
  have hpre : s₁.data.length = s₂.data.length := by
    have hl := congrArg List.length hdata
    simp only [List.length_append, hdl] at hl
    omega
  exact hne (string_eq_of_data_eq (List.append_inj hdata hpre).1)

theorem contains_eq_false_of_not_mem {l : List String} {a : String} (h : a ∉ l) :
    l.contains a = false := by
  simp [List.contains, List.elem_eq_mem, h]

/-! ### Shared concrete instances for witnesses and counterexamples -/

/-- A host with neither hashing backend available. -/
def hostNoLib : CryptoHost :=
  { HAS_CRYPT := false, HAS_PASSLIB := false, methods := [],
    cryptHash := fun _ _ _ => "", passlibHash := fun _ _ _ => "" }

/-- A fixed random source used for concrete evaluations. -/
def rndDefault : RandomSource := { draw := fun _ => 0, randomSalt := "saltsalt" }

/-- A concrete digest function of fixed output length. -/
def constDigest : String → String → String → String := fun _ _ _ => "DDDDDDDDDDD"

/-- A host whose two backends both follow the spec's HashResult format. -/
def hostModel : CryptoHost :=
  { HAS_CRYPT := true, HAS_PASSLIB := true, methods := ["sha512", "crypt"],
    cryptHash := modelBackendHash constDigest,
    passlibHash := modelBackendHash constDigest }

/-- A host where only the native backend is available, supporting only the
legacy `crypt` scheme, with a digest that depends on password and salt. -/
def hostCryptOnly : CryptoHost :=
  { HAS_CRYPT := true, HAS_PASSLIB := false, methods := ["crypt"],
    cryptHash := modelBackendHash (fun p s _ => p ++ "/" ++ s),
    passlibHash := modelBackendHash (fun p s _ => p ++ "/" ++ s) }

/-! ### Claim theorems for the hash generator -/

/-- C1: `gen_hash` uses the native crypt backend whenever it is available and
the requested algorithm (or no algorithm) is in its supported set; otherwise
it uses the passlib backend when that one is available and supports the
request; and exactly one backend is invoked per call (one invocation on
success, none on error, never a blend). -/
theorem gen_hash_backend_selection (host : CryptoHost) (rnd : RandomSource)
    (crypt_salt password algorithm : Option String) :
    ((host.HAS_CRYPT = true ∧ algoSupported algorithm host.methods = true) →
        (gen_hash host rnd crypt_salt password algorithm).invoked = [Backend.native] ∧
        usedBackend (gen_hash host rnd crypt_salt password algorithm) = some Backend.native) ∧
    (¬(host.HAS_CRYPT = true ∧ algoSupported algorithm host.methods = true) →
      (host.HAS_PASSLIB = true ∧ algoSupported algorithm known_methods = true) →
        (gen_hash host rnd crypt_salt password algorithm).invoked = [Backend.passlib] ∧
        usedBackend (gen_hash host rnd crypt_salt password algorithm) = some Backend.passlib) ∧
    ((∃ b h, (gen_hash host rnd crypt_salt password algorithm).result = Except.ok (b, h) ∧
        (gen_hash host rnd crypt_salt password algorithm).invoked = [b]) ∨
      ((gen_hash host rnd crypt_salt password algorithm).invoked = [] ∧
        ∃ e, (gen_hash host rnd crypt_salt password algorithm).result = Except.error e)) := by
  by_cases h1 : (host.HAS_CRYPT && algoSupported algorithm host.methods) = true
  · refine ⟨fun _ => ?_, fun hno _ => absurd (by simpa using h1 :
        host.HAS_CRYPT = true ∧ algoSupported algorithm host.methods = true) hno, ?_⟩
    · constructor <;> simp [gen_hash, usedBackend, h1]
    · refine Or.inl ⟨Backend.native,
        host.cryptHash (password.getD (secure_password rnd.draw))
          (crypt_salt.getD rnd.randomSalt) (resolveAlgorithm host algorithm), ?_, ?_⟩ <;>
        simp [gen_hash, h1]
  · have h1a : ¬(host.HAS_CRYPT = true ∧ algoSupported algorithm host.methods = true) := by
      intro hc; exact h1 (by simp [hc.1, hc.2])
    by_cases h2 : (host.HAS_PASSLIB && algoSupported algorithm known_methods) = true
    · refine ⟨fun hc => absurd hc h1a, fun _ _ => ?_, ?_⟩
      · constructor <;> simp [gen_hash, usedBackend, h1, h2]
      · refine Or.inl ⟨Backend.passlib,
          host.passlibHash (password.getD (secure_password rnd.draw))
            (crypt_salt.getD rnd.randomSalt) (resolveAlgorithm host algorithm), ?_, ?_⟩ <;>
          simp [gen_hash, h1, h2]
    · refine ⟨fun hc => absurd hc h1a,
        fun _ hp => absurd (by simp [hp.1, hp.2] :
          (host.HAS_PASSLIB && algoSupported algorithm known_methods) = true) h2, ?_⟩
      refine Or.inr ⟨?_, ?_⟩
      · cases algorithm <;> simp [gen_hash, h1, h2]
      · cases algorithm <;> simp [gen_hash, h1, h2]

/-- C1 witness: on a host with only the native backend, requesting `crypt`
invokes the native backend exactly once. -/
theorem gen_hash_backend_selection_witness :
    (gen_hash hostCryptOnly rndDefault none none (some "crypt")).invoked = [Backend.native] ∧
    usedBackend (gen_hash hostCryptOnly rndDefault none none (some "crypt")) =
      some Backend.native :=
  (gen_hash_backend_selection hostCryptOnly rndDefault none none (some "crypt")).1
    ⟨rfl, by decide⟩

/-- C2: requesting an algorithm that is in neither backend's supported set
raises `SaltInvocationError.unsupportedAlgorithm` naming that algorithm,
regardless of which backends are available. -/
theorem gen_hash_unsupported_algorithm_error (host : CryptoHost) (rnd : RandomSource)
    (crypt_salt password : Option String) (a : String)
    (hk : a ∉ known_methods) (hm : a ∉ host.methods) :
    (gen_hash host rnd crypt_salt password (some a)).result =
      Except.error (SaltInvocationError.unsupportedAlgorithm a) := by
  have h1 : algoSupported (some a) host.methods = false := by
    simp only [algoSupported]; exact contains_eq_false_of_not_mem hm
  have h2 : algoSupported (some a) known_methods = false := by
    simp only [algoSupported]; exact contains_eq_false_of_not_mem hk
  simp [gen_hash, h1, h2]

/-- C2 witness: requesting the unknown algorithm name on a host with both
backends available raises the error naming it. -/
theorem gen_hash_unsupported_algorithm_error_witness :
    (gen_hash hostModel rndDefault none none (some "doesntexist")).result =
      Except.error (SaltInvocationError.unsupportedAlgorithm "doesntexist") :=
  gen_hash_unsupported_algorithm_error hostModel rndDefault none none "doesntexist"
    (by decide) (by decide)

/-- C3 counterexample: with neither backend available but an algorithm
requested, the error raised names the requested algorithm instead of
indicating missing hashing capability, so the claimed error shape does not
hold for every input. -/
theorem gen_hash_no_backend_counterexample :
    (gen_hash hostNoLib rndDefault none none (some "sha512")).result =
      Except.error (SaltInvocationError.unsupportedAlgorithm "sha512") ∧
    SaltInvocationError.unsupportedAlgorithm "sha512" ≠
      SaltInvocationError.noBackendAvailable := by
  exact ⟨by decide, by decide⟩

/-- C3 (amended): with neither backend available, `gen_hash` always raises a
`SaltInvocationError` rather than returning a value; when no algorithm was
requested, the error indicates that no hashing capability is present, and
when an algorithm was requested, the error names that algorithm. -/
theorem gen_hash_no_backend_errors (host : CryptoHost) (rnd : RandomSource)
    (crypt_salt password algorithm : Option String)
    (hc : host.HAS_CRYPT = false) (hp : host.HAS_PASSLIB = false) :
    (∃ e, (gen_hash host rnd crypt_salt password algorithm).result = Except.error e) ∧
    (algorithm = none →
      (gen_hash host rnd crypt_salt password algorithm).result =
        Except.error SaltInvocationError.noBackendAvailable) ∧
    (∀ a, algorithm = some a →
      (gen_hash host rnd crypt_salt password algorithm).result =
        Except.error (SaltInvocationError.unsupportedAlgorithm a)) := by
  cases algorithm <;> simp [gen_hash, hc, hp]

/-- C3 witness: on a host without backends, the no-argument call raises the
no-capability error and a call requesting `md5` raises the error naming
`md5`. -/
theorem gen_hash_no_backend_errors_witness :
    (∃ e, (gen_hash hostNoLib rndDefault none none none).result = Except.error e) ∧
    (gen_hash hostNoLib rndDefault none none none).result =
      Except.error SaltInvocationError.noBackendAvailable ∧
    (gen_hash hostNoLib rndDefault none none (some "md5")).result =
      Except.error (SaltInvocationError.unsupportedAlgorithm "md5") := by
  have h1 := gen_hash_no_backend_errors hostNoLib rndDefault none none none rfl rfl
  have h2 := gen_hash_no_backend_errors hostNoLib rndDefault none none (some "md5") rfl rfl
  exact ⟨h1.1, h1.2.1 rfl, h2.2.2 "md5" rfl⟩

/-- C5: `gen_hash` is deterministic: for a fixed supplied
(password, salt, algorithm) triple evaluated against the same host, the
outcome does not depend on the random source, so any two calls return
identical output. -/
theorem gen_hash_deterministic (host : CryptoHost) (r₁ r₂ : RandomSource)
    (s p : String) (algorithm : Option String) :
    gen_hash host r₁ (some s) (some p) algorithm =
      gen_hash host r₂ (some s) (some p) algorithm := rfl

/-- Helper: the warnings of a call depend only on the resolved algorithm and
the supplied salt, never on the selected branch. -/
theorem gen_hash_warnings (host : CryptoHost) (rnd : RandomSource)
    (cs pw a : Option String) :
    (gen_hash host rnd cs pw a).warnings =
      (if resolveAlgorithm host a == "crypt" && saltTooLongForCrypt cs
       then [cryptSaltWarning] else []) := by
  unfold gen_hash
  split
  · rfl
  · split
    · rfl
    · cases a <;> rfl

/-- Helper: whether (and with which error) a call fails never depends on the
supplied salt. -/
theorem gen_hash_err_salt_independent (host : CryptoHost) (rnd : RandomSource)
    (cs₁ cs₂ pw a : Option String) :
    errOf (gen_hash host rnd cs₁ pw a) = errOf (gen_hash host rnd cs₂ pw a) := by
  by_cases h1 : (host.HAS_CRYPT && algoSupported a host.methods) = true
  · simp [gen_hash, errOf, h1]
  · by_cases h2 : (host.HAS_PASSLIB && algoSupported a known_methods) = true
    · simp [gen_hash, errOf, h1, h2]
    · cases a <;> simp [gen_hash, errOf, h1, h2]

/-- Helper: when the selection policy finds a backend, the call returns that
backend's hash of the effective password, salt and algorithm. -/
theorem gen_hash_ok_of_selectionOk (host : CryptoHost) (rnd : RandomSource)
    (cs pw a : Option String) (hsel : selectionOk host a) :
    (gen_hash host rnd cs pw a).result =
      Except.ok (Backend.native,
        host.cryptHash (pw.getD (secure_password rnd.draw)) (cs.getD rnd.randomSalt)
          (resolveAlgorithm host a)) ∨
    (gen_hash host rnd cs pw a).result =
      Except.ok (Backend.passlib,
        host.passlibHash (pw.getD (secure_password rnd.draw)) (cs.getD rnd.randomSalt)
          (resolveAlgorithm host a)) := by
  by_cases h1 : (host.HAS_CRYPT && algoSupported a host.methods) = true
  · left; simp [gen_hash, h1]
  · right
    have h2 : (host.HAS_PASSLIB && algoSupported a known_methods) = true := by
      rcases hsel with ⟨hcc, hm⟩ | ⟨hpp, hm⟩
      · exact absurd (by simp [hcc, hm]) h1
      · simp [hpp, hm]
    simp [gen_hash, h1, h2]

/-- C4: a supplied salt that is malformed for the resolved legacy `crypt`
algorithm makes `gen_hash` emit exactly the warning-level diagnostic; the
malformed salt never changes whether or with which error the call fails, and
whenever a backend handles the request the call still returns a hash
result. -/
theorem gen_hash_malformed_salt_recovered (host : CryptoHost) (rnd : RandomSource)
    (s : String) (password algorithm : Option String)
    (halgo : resolveAlgorithm host algorithm = "crypt")
    (hlen : 2 < s.length) :
    (gen_hash host rnd (some s) password algorithm).warnings = [cryptSaltWarning] ∧
    errOf (gen_hash host rnd (some s) password algorithm) =
      errOf (gen_hash host rnd none password algorithm) ∧
    (selectionOk host algorithm →
      ∃ b h, (gen_hash host rnd (some s) password algorithm).result = Except.ok (b, h)) := by
  refine ⟨?_, gen_hash_err_salt_independent host rnd (some s) none password algorithm,
    fun hsel => ?_⟩
  · rw [gen_hash_warnings]
    simp [halgo, saltTooLongForCrypt, hlen]
  · rcases gen_hash_ok_of_selectionOk host rnd (some s) password algorithm hsel with h | h
    · exact ⟨_, _, h⟩
    · exact ⟨_, _, h⟩

/-- C4 witness: the over-long salt for `crypt` on a crypt-capable host warns
and still hashes. -/
theorem gen_hash_malformed_salt_recovered_witness :
    (gen_hash hostCryptOnly rndDefault (some "toolong") (some "pw") (some "crypt")).warnings
        = [cryptSaltWarning] ∧
    ∃ b h, (gen_hash hostCryptOnly rndDefault (some "toolong") (some "pw")
        (some "crypt")).result = Except.ok (b, h) := by
  have h := gen_hash_malformed_salt_recovered hostCryptOnly rndDefault "toolong"
    (some "pw") (some "crypt") rfl (by decide)
  exact ⟨h.1, h.2.2 (Or.inl ⟨rfl, by decide⟩)⟩

/-- Helper: the modelled backend hash is injective in the salt the scheme
actually consumes, for digests of fixed per-algorithm length. -/
theorem modelBackendHash_salt_ne (digest : String → String → String → String)
    (dlen : String → Nat) (hd : ∀ p s a, (digest p s a).length = dlen a)
    (p a s₁ s₂ : String)
    (hne : modelSaltUsed a s₁ ≠ modelSaltUsed a s₂) :
    modelBackendHash digest p s₁ a ≠ modelBackendHash digest p s₂ a := by
  by_cases ha : a = "crypt"
  · subst ha
    simp only [modelSaltUsed, if_pos] at hne
    simp only [modelBackendHash, if_pos]
    exact string_append_ne_append hne (by rw [hd, hd])
  · simp only [modelSaltUsed, if_neg ha] at hne
    simp only [modelBackendHash, if_neg ha]
    intro he
    simp only [string_append_assoc] at he
    have he1 := string_append_cancel_left he
    have he2 := string_append_cancel_left he1
    have he3 := string_append_cancel_left he2
    exact string_append_ne_append hne
      (by rw [string_length_append, string_length_append, hd, hd]) he3

/-- C6 counterexample: for the legacy `crypt` scheme the backend truncates
the salt to two characters (as the spec's malformed-salt note mandates), so
the two distinct salts "go" and "goxx" produce identical hash results. -/
theorem gen_hash_truncated_salt_counterexample :
    "go" ≠ "goxx" ∧
    (gen_hash hostCryptOnly rndDefault (some "go") (some "pw") (some "crypt")).result =
      (gen_hash hostCryptOnly rndDefault (some "goxx") (some "pw") (some "crypt")).result := by
  exact ⟨by decide, by decide⟩

/-- C6 (amended): for a fixed (password, algorithm), two supplied salts (a
missing salt standing for the backend-generated one) that remain different
after the scheme's salt normalization — which is the identity for every
valid salt — produce different hash results, over backends following the
spec's HashResult format with fixed-length digests. -/
theorem gen_hash_distinct_salts_distinct_hashes
    (digest : String → String → String → String) (dlen : String → Nat)
    (host : CryptoHost) (rnd : RandomSource) (p a : String) (o₁ o₂ : Option String)
    (hch : host.cryptHash = modelBackendHash digest)
    (hph : host.passlibHash = modelBackendHash digest)
    (hd : ∀ pw s al, (digest pw s al).length = dlen al)
    (hne : modelSaltUsed a (o₁.getD rnd.randomSalt) ≠ modelSaltUsed a (o₂.getD rnd.randomSalt))
    (hsel : selectionOk host (some a)) :
    (gen_hash host rnd o₁ (some p) (some a)).result ≠
      (gen_hash host rnd o₂ (some p) (some a)).result := by
  have key := modelBackendHash_salt_ne digest dlen hd p a _ _ hne
  by_cases h1 : (host.HAS_CRYPT && algoSupported (some a) host.methods) = true
  · simpa [gen_hash, h1, hch, resolveAlgorithm] using key
  · have h2 : (host.HAS_PASSLIB && algoSupported (some a) known_methods) = true := by
      rcases hsel with ⟨hcc, hm⟩ | ⟨hpp, hm⟩
      · exact absurd (by simp [hcc, hm]) h1
      · simp [hpp, hm]
    simpa [gen_hash, h1, h2, hph, resolveAlgorithm] using key

/-- C6 witness: on a HashResult-format host, the good and bad sha512 salts of
the unit tests yield different hashes. -/
theorem gen_hash_distinct_salts_distinct_hashes_witness :
    (gen_hash hostModel rndDefault (some "goodsalt") (some "pw") (some "sha512")).result ≠
      (gen_hash hostModel rndDefault (some "badsalt") (some "pw") (some "sha512")).result :=
  gen_hash_distinct_salts_distinct_hashes constDigest (fun _ => 11) hostModel rndDefault
    "pw" "sha512" (some "goodsalt") (some "badsalt") rfl rfl (fun _ _ _ => rfl)
    (by decide) (Or.inl ⟨rfl, by decide⟩)

/-- C7: every character of a `secure_password` result, whatever the random
draws, avoids the denylisted symbol characters
`! @ # $ % ^ & * ( ) _ = +`. -/
theorem secure_password_excludes_denylisted (draw : Nat → Nat) :
    (secure_password draw).data.all (fun c => !denylistedChars.contains c) = true := by
  have hlen : 0 < passwordChars.length := by decide
  have hbound : ∀ n, n < passwordChars.length →
      (!denylistedChars.contains (passwordChars.getD n 'x')) = true := by decide
  rw [List.all_eq_true]
  intro c hc
  have hc1 : c ∈ (List.range passwordLength).map
      (fun i => passwordChars.getD (draw i % passwordChars.length) 'x') := hc
  rcases List.mem_map.mp hc1 with ⟨i, -, rfl⟩
  exact hbound _ (Nat.mod_lt _ hlen)

/-- Helper: the modelled backend hash is never the empty string when digests
are nonempty. -/
theorem modelBackendHash_ne_empty (digest : String → String → String → String)
    (dlen : String → Nat) (hd : ∀ p s a, (digest p s a).length = dlen a)
    (hdpos : ∀ al, 0 < dlen al) (p s a : String) :
    modelBackendHash digest p s a ≠ "" := by
  intro he
  by_cases ha : a = "crypt"
  · simp only [modelBackendHash, if_pos ha] at he
    have hl := congrArg String.length he
    rw [string_length_append] at hl
    have h0 : ("" : String).length = 0 := rfl
    rw [h0, hd] at hl
    have := hdpos a
    omega
  · simp only [modelBackendHash, if_neg ha] at he
    have hl := congrArg String.length he
    simp only [string_length_append] at hl
    have h1 : ("$" : String).length = 1 := rfl
    have h0 : ("" : String).length = 0 := rfl
    rw [h1, h0] at hl
    omega

/-- C8: with at least one backend present, calling `gen_hash` with no
arguments at all does not raise and returns a non-empty hash string, over
backends following the spec's HashResult format with nonempty digests. -/
theorem gen_hash_no_arguments_succeeds (host : CryptoHost) (rnd : RandomSource)
    (digest : String → String → String → String) (dlen : String → Nat)
    (hch : host.cryptHash = modelBackendHash digest)
    (hph : host.passlibHash = modelBackendHash digest)
    (hd : ∀ p s a, (digest p s a).length = dlen a)
    (hdpos : ∀ al, 0 < dlen al)
    (hav : host.HAS_CRYPT = true ∨ host.HAS_PASSLIB = true) :
    ∃ b h, (gen_hash host rnd none none none).result = Except.ok (b, h) ∧ h ≠ "" := by
  have hsel : selectionOk host none := by
    rcases hav with hc | hp
    · exact Or.inl ⟨hc, rfl⟩
    · exact Or.inr ⟨hp, rfl⟩
  rcases gen_hash_ok_of_selectionOk host rnd none none none hsel with h | h
  · refine ⟨_, _, h, ?_⟩
    rw [hch]
    exact modelBackendHash_ne_empty digest dlen hd hdpos _ _ _
  · refine ⟨_, _, h, ?_⟩
    rw [hph]
    exact modelBackendHash_ne_empty digest dlen hd hdpos _ _ _

/-- C8 witness: the no-argument call on a host with both backends returns a
non-empty hash. -/
theorem gen_hash_no_arguments_succeeds_witness :
    ∃ b h, (gen_hash hostModel rndDefault none none none).result = Except.ok (b, h) ∧
      h ≠ "" :=
  gen_hash_no_arguments_succeeds hostModel rndDefault constDigest (fun _ => 11) rfl rfl
    (fun _ _ _ => rfl) (fun _ => (by decide : (0 : Nat) < 11)) (Or.inl rfl)

end Pycrypto

namespace Grains

/-- A grain value: the Python values flowing through the grains state module
(strings, numbers, booleans, `None`, and nested lists). -/
inductive GVal
  | str (s : String)
  | num (n : Int)
  | bool (b : Bool)
  | null
  | list (xs : List GVal)

mutual

/-- Decidable equality of grain values. -/
def GVal.decEq : (a b : GVal) → Decidable (a = b)
  | .str a, .str b =>
      if h : a = b then .isTrue (by rw [h])
      else .isFalse (by intro hc; cases hc; exact h rfl)
  | .num a, .num b =>
      if h : a = b then .isTrue (by rw [h])
      else .isFalse (by intro hc; cases hc; exact h rfl)
  | .bool a, .bool b =>
      if h : a = b then .isTrue (by rw [h])
      else .isFalse (by intro hc; cases hc; exact h rfl)
  | .null, .null => .isTrue rfl
  | .list as, .list bs =>
      match GVal.decEqList as bs with
      | .isTrue h => .isTrue (by rw [h])
      | .isFalse h => .isFalse (by intro hc; cases hc; exact h rfl)
  | .str _, .num _ => .isFalse (fun h => GVal.noConfusion h)
  | .str _, .bool _ => .isFalse (fun h => GVal.noConfusion h)
  | .str _, .null => .isFalse (fun h => GVal.noConfusion h)
  | .str _, .list _ => .isFalse (fun h => GVal.noConfusion h)
  | .num _, .str _ => .isFalse (fun h => GVal.noConfusion h)
  | .num _, .bool _ => .isFalse (fun h => GVal.noConfusion h)
  | .num _, .null => .isFalse (fun h => GVal.noConfusion h)
  | .num _, .list _ => .isFalse (fun h => GVal.noConfusion h)
  | .bool _, .str _ => .isFalse (fun h => GVal.noConfusion h)
  | .bool _, .num _ => .isFalse (fun h => GVal.noConfusion h)
  | .bool _, .null => .isFalse (fun h => GVal.noConfusion h)
  | .bool _, .list _ => .isFalse (fun h => GVal.noConfusion h)
  | .null, .str _ => .isFalse (fun h => GVal.noConfusion h)
  | .null, .num _ => .isFalse (fun h => GVal.noConfusion h)
  | .null, .bool _ => .isFalse (fun h => GVal.noConfusion h)
  | .null, .list _ => .isFalse (fun h => GVal.noConfusion h)
  | .list _, .str _ => .isFalse (fun h => GVal.noConfusion h)
  | .list _, .num _ => .isFalse (fun h => GVal.noConfusion h)
  | .list _, .bool _ => .isFalse (fun h => GVal.noConfusion h)
  | .list _, .null => .isFalse (fun h => GVal.noConfusion h)

/-- Decidable equality of lists of grain values. -/
def GVal.decEqList : (as bs : List GVal) → Decidable (as = bs)
  | [], [] => .isTrue rfl
  | [], _ :: _ => .isFalse (fun h => List.noConfusion h)
  | _ :: _, [] => .isFalse (fun h => List.noConfusion h)
  | a :: as, b :: bs =>
      match GVal.decEq a b with
      | .isFalse h1 => .isFalse (by intro hc; cases hc; exact h1 rfl)
      | .isTrue h1 =>
          match GVal.decEqList as bs with
          | .isTrue h2 => .isTrue (by rw [h1, h2])
          | .isFalse h2 => .isFalse (by intro hc; cases hc; exact h2 rfl)

end

instance : DecidableEq GVal := GVal.decEq

/-- Python truthiness of a grain value. -/
def truthy : GVal → Bool
  | .str s => !s.isEmpty
  | .num n => n ≠ 0
  | .bool b => b
  | .null => false
  | .list xs => !xs.isEmpty

/-- The `changes` dictionary shapes produced by the grains states. -/
inductive Changes
  | empty
  | newName (name : String)
  | newVal (v : GVal)
  | changed (name : String) (v : GVal)
  | added (v : GVal)
deriving DecidableEq

/-- A mutation of the grains store performed through the injected
`__salt__` interface. -/
inductive StoreOp
  | set (name : String) (value : GVal) (force : Bool)
  | append (name : String) (value : GVal)
deriving DecidableEq

/-- The state-return dictionary `{"name", "changes", "result", "comment"}`;
`result` is `True`/`False`/`None`. -/
structure StateRet where
  name : String
  changes : Changes
  result : Option Bool
  comment : String
deriving DecidableEq

/-- The injected execution environment of the grains state module:
`__salt__["grains.get"]` (with `Option.none` standing for the
`_non_existent` sentinel of a missing grain), the `__opts__["test"]` flag,
the return of `__salt__["grains.set"]`, the `__context__["pending_grains"]`
dictionary, and the return of `__salt__["grains.append"]` together with what
`grains.get` yields after that append. -/
structure GrainsCtx where
  get : String → Option GVal
  testMode : Bool
  setRet : String → GVal → Bool → StateRet
  pendingGrains : List (String × List GVal)
  appendRet : String → GVal → GVal
  getAfterAppend : String → GVal → GVal

def DEFAULT_TARGET_DELIM : String := ":"

/-- Fuel-bounded substring replacement over character lists; one unit of fuel
per consumed character, so `fuel = length` always suffices. -/
def replaceSubAux (pat rep : List Char) : Nat → List Char → List Char
  | _, [] => []
  | 0, l => l
  | fuel+1, c :: rest =>
      if !pat.isEmpty && pat.isPrefixOf (c :: rest) then
        rep ++ replaceSubAux pat rep fuel (List.drop (pat.length - 1) rest)
      else c :: replaceSubAux pat rep fuel rest

/-- `re.sub(delimiter, DEFAULT_TARGET_DELIM, name)`: the states use literal
delimiter strings, modelled as plain substring replacement. -/
def substDelim (delimiter name : String) : String :=
  String.mk (replaceSubAux delimiter.data DEFAULT_TARGET_DELIM.data name.data.length name.data)

mutual

/-- Python `repr` of a grain value, as used when a value is rendered inside
a list. -/
def pyRepr : GVal → String
  | .str s => "'" ++ s ++ "'"
  | .num n => toString n
  | .bool b => if b then "True" else "False"
  | .null => "None"
  | .list xs => "[" ++ pyReprList xs ++ "]"

/-- Comma-separated `repr`s of the elements of a list value. -/
def pyReprList : List GVal → String
  | [] => ""
  | [x] => pyRepr x
  | x :: y :: rest => pyRepr x ++ ", " ++ pyReprList (y :: rest)

end

/-- Python `str` of a grain value, as interpolated into state comments. -/
def pyStr : GVal → String
  | .str s => s
  | v => pyRepr v

/-- `present` from `src/salt/states/grains.py`: normalize the name, read the
grain through the sentinel-default `grains.get`, report already-set, or in
test mode report the pending addition/change without touching the store,
otherwise delegate to `grains.set` and decorate its return. The second
component records the store mutations performed. -/
def present (ctx : GrainsCtx) (name : String) (value : GVal)
    (delimiter : String) (force : Bool) : StateRet × List StoreOp :=
  let name1 := substDelim delimiter name
  let existing := ctx.get name1
  if existing = some value then
    ({ name := name1, changes := Changes.empty, result := some true,
       comment := "Grain is already set" }, [])
  else if ctx.testMode then
    match existing with
    | none =>
        ({ name := name1, changes := Changes.newName name1, result := none,
           comment := "Grain " ++ name1 ++ " is set to be added" }, [])
    | some _ =>
        ({ name := name1, changes := Changes.changed name1 value, result := none,
           comment := "Grain " ++ name1 ++ " is set to be changed" }, [])
  else
    let r := ctx.setRet name1 value force
    let r1 :=
      if r.result = some true ∧ r.changes ≠ Changes.empty then
        { r with comment := "Set grain " ++ name1 ++ " to " ++ pyStr value }
      else r
    ({ r1 with name := name1 }, [StoreOp.set name1 value force])

/-- `make_hashable` from the source: fold over a list grain, adding
`frozenset(element)` for each non-list element (for a string that is the set
of its characters; numbers, booleans and `None` are not iterable, so Python
raises `TypeError`) and recursing into nested lists.  The accumulator is
passed by reference and the function begins with `result = result or set()`:
a nonempty (truthy) accumulator is shared with the recursive call, so its
mutations are kept; an empty (falsy) accumulator is rebound to a fresh set
inside the callee and the recursion's discarded return value loses its
additions, so a nested list reached while the accumulator is empty
contributes nothing (its `TypeError`s still propagate). -/
def make_hashable : List GVal → Finset (Finset Char) → Except String (Finset (Finset Char))
  | [], result => Except.ok result
  | GVal.str s :: rest, result => make_hashable rest (insert s.data.toFinset result)
  | GVal.num _ :: _, _ => Except.error "TypeError: int object is not iterable"
  | GVal.bool _ :: _, _ => Except.error "TypeError: bool object is not iterable"
  | GVal.null :: _, _ => Except.error "TypeError: NoneType object is not iterable"
  | GVal.list l :: rest, result =>
      if result = ∅ then
        match make_hashable l ∅ with
        | Except.ok _ => make_hashable rest result
        | Except.error e => Except.error e
      else
        match make_hashable l result with
        | Except.ok r => make_hashable rest r
        | Except.error e => Except.error e

/-- Insert into a Python set modelled as a duplicate-free list. -/
def setInsert (xs : List GVal) (v : GVal) : List GVal :=
  if xs.contains v then xs else xs ++ [v]

/-- `set(xs)` modelled with first-occurrence order (Python leaves the order
unspecified). -/
def setOfList (xs : List GVal) : List GVal := xs.foldl setInsert []

/-- Whether a value is hashable in Python (lists are not). -/
def pyHashable : GVal → Bool
  | .list _ => false
  | _ => true

/-- Python `set(xs)` on a list: raises `TypeError` on unhashable elements. -/
def pySet (xs : List GVal) : Except String (List GVal) :=
  if xs.all pyHashable then Except.ok (setOfList xs)
  else Except.error "TypeError: unhashable type: list"

def setIntersect (a b : List GVal) : List GVal := a.filter (fun v => b.contains v)

def setDiff (a b : List GVal) : List GVal := a.filter (fun v => !b.contains v)

/-- Python `set(x)` on an arbitrary value: a list yields the set of its
elements, a string the set of its characters (as one-character strings);
other values are not iterable. -/
def pySetOfGVal : GVal → Except String (List GVal)
  | .list xs => pySet xs
  | .str s => Except.ok (setOfList (s.data.map (fun c => GVal.str (String.mk [c]))))
  | _ => Except.error "TypeError: object is not iterable"

def setSubset (a b : List GVal) : Bool := a.all (fun v => b.contains v)

/-- Python `in` on a grain container, as used on the value that
`grains.get` yields after `grains.append` (a list there). -/
def gvalMember (item container : GVal) : Bool :=
  match container with
  | .list xs => xs.contains item
  | _ => false

def lookupPending (pending : List (String × List GVal)) (name : String) :
    Option (List GVal) :=
  match pending.find? (fun p => p.1 == name) with
  | some p => some p.2
  | none => none

def setPending (pending : List (String × List GVal)) (name : String)
    (vs : List GVal) : List (String × List GVal) :=
  match pending with
  | [] => [(name, vs)]
  | p :: rest => if p.1 == name then (name, vs) :: rest else p :: setPending rest name vs

/-- The `grains.append` tail of `list_present`: perform the append, then
verify through `grains.get` that the value (list or scalar) is now present,
and report accordingly. -/
def list_present_append (ctx : GrainsCtx) (name1 : String) (valueCur : GVal)
    (ret1 : StateRet) (pending2 : List (String × List GVal)) :
    Except String (StateRet × List StoreOp × List (String × List GVal)) :=
  let newGrains := ctx.appendRet name1 valueCur
  let ops := [StoreOp.append name1 valueCur]
  match valueCur with
  | GVal.list vxs2 =>
      match pySet vxs2 with
      | Except.error e => Except.error e
      | Except.ok sv2 =>
          match pySetOfGVal (ctx.getAfterAppend name1 valueCur) with
          | Except.error e => Except.error e
          | Except.ok sg =>
              if !setSubset sv2 sg then
                Except.ok ({ ret1 with
                    result := some false
                    comment := "Failed append value " ++ pyStr valueCur ++
                      " to grain " ++ name1 }, ops, pending2)
              else
                Except.ok ({ ret1 with
                    comment := "Append value " ++ pyStr valueCur ++ " to grain " ++ name1
                    changes := Changes.newVal newGrains }, ops, pending2)
  | _ =>
      if !gvalMember valueCur (ctx.getAfterAppend name1 valueCur) then
        Except.ok ({ ret1 with
            result := some false
            comment := "Failed append value " ++ pyStr valueCur ++
              " to grain " ++ name1 }, ops, pending2)
      else
        Except.ok ({ ret1 with
            comment := "Append value " ++ pyStr valueCur ++ " to grain " ++ name1
            changes := Changes.newVal newGrains }, ops, pending2)

/-- `list_present` from the source: normalize the name, read the grain (the
sentinel default of `grains.get` is the falsy empty string), and for a truthy
list grain either report an already-present value through the
`make_hashable` subset check, or prune the value against and update
`__context__["pending_grains"]`, then report in test mode or append.
A falsy grain is reported in test mode or appended as new. Python
`TypeError`s (non-iterable or unhashable elements) propagate as errors.
The result carries the state dictionary, the store-mutation trace, and the
updated `pending_grains` context. -/
def list_present (ctx : GrainsCtx) (name : String) (value : GVal)
    (delimiter : String) :
    Except String (StateRet × List StoreOp × List (String × List GVal)) :=
  let name1 := substDelim delimiter name
  let ret0 : StateRet :=
    { name := name1, changes := Changes.empty, result := some true, comment := "" }
  let grain := (ctx.get name1).getD (GVal.str "")
  if truthy grain then
    match grain with
    | GVal.list gxs =>
        match value with
        | GVal.list vxs =>
            match make_hashable vxs ∅ with
            | Except.error e => Except.error e
            | Except.ok hv =>
            match make_hashable gxs ∅ with
            | Except.error e => Except.error e
            | Except.ok hg =>
            if hv ⊆ hg then
              Except.ok ({ ret0 with comment := "Value " ++ pyStr value ++
                  " is already in grain " ++ name1 }, [], ctx.pendingGrains)
            else
              let step :=
                match lookupPending ctx.pendingGrains name1 with
                | some pvs =>
                    match pySet vxs with
                    | Except.error e => Except.error e
                    | Except.ok sv =>
                        if !(setIntersect sv pvs).isEmpty then
                          let v2 := setDiff sv pvs
                          let c2 := "Removed value " ++ pyRepr (GVal.list v2) ++
                            " from update due to context found in \"" ++ name1 ++ "\".\n"
                          Except.ok (v2, { ret0 with comment := c2 })
                        else Except.ok (vxs, ret0)
                | none => Except.ok (vxs, ret0)
              match step with
              | Except.error e => Except.error e
              | Except.ok (v2, ret1) =>
              if v2.all pyHashable then
                let pvs0 := (lookupPending ctx.pendingGrains name1).getD []
                let pending2 := setPending ctx.pendingGrains name1 (v2.foldl setInsert pvs0)
                if ctx.testMode then
                  Except.ok ({ ret1 with
                      result := none
                      comment := "Value " ++ pyStr (GVal.list v2) ++
                        " is set to be appended to grain " ++ name1
                      changes := Changes.newVal grain }, [], pending2)
                else
                  list_present_append ctx name1 (GVal.list v2) ret1 pending2
              else Except.error "TypeError: unhashable type: list"
        | _ =>
            if gxs.contains value then
              Except.ok ({ ret0 with comment := "Value " ++ pyStr value ++
                  " is already in grain " ++ name1 }, [], ctx.pendingGrains)
            else if ctx.testMode then
              Except.ok ({ ret0 with
                  result := none
                  comment := "Value " ++ pyStr value ++
                    " is set to be appended to grain " ++ name1
                  changes := Changes.newVal grain }, [], ctx.pendingGrains)
            else
              list_present_append ctx name1 value ret0 ctx.pendingGrains
    | _ =>
        Except.ok ({ ret0 with
            result := some false
            comment := "Grain " ++ name1 ++ " is not a valid list" }, [],
          ctx.pendingGrains)
  else
    if ctx.testMode then
      Except.ok ({ ret0 with
          result := none
          comment := "Grain " ++ name1 ++ " is set to be added"
          changes := Changes.newVal grain }, [], ctx.pendingGrains)
    else
      list_present_append ctx name1 value ret0 ctx.pendingGrains

/-! ### Claim theorems for the grains state module -/

/-- C9: in test (dry-run) mode, when the stored grain differs from the
requested value (including a missing grain), `present` returns result `None`
with a "set to be added" or "set to be changed" comment and never invokes
the store's set operation. -/
theorem present_test_mode_no_mutation (ctx : GrainsCtx) (name : String) (value : GVal)
    (delimiter : String) (force : Bool)
    (ht : ctx.testMode = true)
    (hne : ctx.get (substDelim delimiter name) ≠ some value) :
    (present ctx name value delimiter force).1.result = none ∧
    ((present ctx name value delimiter force).1.comment =
        "Grain " ++ substDelim delimiter name ++ " is set to be added" ∨
      (present ctx name value delimiter force).1.comment =
        "Grain " ++ substDelim delimiter name ++ " is set to be changed") ∧
    (present ctx name value delimiter force).2 = [] := by
  unfold present
  rw [if_neg hne, if_pos (by rw [ht] : ctx.testMode = true)]
  cases hget : ctx.get (substDelim delimiter name) with
  | none => exact ⟨rfl, Or.inl rfl, rfl⟩
  | some g => exact ⟨rfl, Or.inr rfl, rfl⟩

/-- A concrete test-mode context with no grains stored. -/
def ctxEmptyTest : GrainsCtx :=
  { get := fun _ => none
    testMode := true
    setRet := fun n v _ =>
      { name := n, changes := Changes.added v, result := some true, comment := "" }
    pendingGrains := []
    appendRet := fun _ v => v
    getAfterAppend := fun _ v => v }

/-- C9 witness: adding a grain in test mode reports the pending addition and
performs no store operation. -/
theorem present_test_mode_no_mutation_witness :
    (present ctxEmptyTest "os" (GVal.str "x") ":" false).1.result = none ∧
    ((present ctxEmptyTest "os" (GVal.str "x") ":" false).1.comment =
        "Grain " ++ substDelim ":" "os" ++ " is set to be added" ∨
      (present ctxEmptyTest "os" (GVal.str "x") ":" false).1.comment =
        "Grain " ++ substDelim ":" "os" ++ " is set to be changed") ∧
    (present ctxEmptyTest "os" (GVal.str "x") ":" false).2 = [] :=
  present_test_mode_no_mutation ctxEmptyTest "os" (GVal.str "x") ":" false rfl
    (by simp [ctxEmptyTest])

/-- C10 counterexample: `make_hashable` does not recurse into a nested list
when the accumulator is still empty — the source's `result = result or
set()` rebinds the falsy accumulator and the recursion's return value is
discarded — so `make_hashable([['ab']])` is the empty set, not the singleton
of the character set of "ab". -/
theorem make_hashable_nested_counterexample :
    make_hashable [GVal.list [GVal.str "ab"]] ∅ = Except.ok (∅ : Finset (Finset Char)) ∧
    Except.ok (∅ : Finset (Finset Char)) ≠
      (Except.ok {("ab").data.toFinset} : Except String (Finset (Finset Char))) := by
  constructor
  · simp [make_hashable]
  · simp
    intro h
    exact (Finset.singleton_ne_empty _) h.symm

/-- C10 (amended): `make_hashable` turns each non-list element of a list
grain into the frozenset of that element's items (for a string, the set of
its characters); a nested list shares the accumulator only when the
accumulator is nonempty at that point, while one reached with an empty
accumulator contributes nothing.  The flat consequence stands:
`list_present`'s already-present subset check identifies two string elements
made of the same characters, so a value list whose string has the same
character set as the stored string is reported as already in the grain, with
no store operation and no context change. -/
theorem make_hashable_charset_collapse (ctx : GrainsCtx) (name delimiter : String)
    (s₁ s₂ : String)
    (hchars : s₁.data.toFinset = s₂.data.toFinset)
    (hg : ctx.get (substDelim delimiter name) = some (GVal.list [GVal.str s₂])) :
    make_hashable [GVal.str s₁] ∅ = Except.ok {s₁.data.toFinset} ∧
    make_hashable [GVal.list [GVal.str s₁]] ∅ = Except.ok ∅ ∧
    (∀ acc : Finset (Finset Char), acc ≠ ∅ →
      make_hashable [GVal.list [GVal.str s₁]] acc =
        Except.ok (insert s₁.data.toFinset acc)) ∧
    list_present ctx name (GVal.list [GVal.str s₁]) delimiter =
      Except.ok ({ name := substDelim delimiter name
                   changes := Changes.empty
                   result := some true
                   comment := "Value " ++ pyStr (GVal.list [GVal.str s₁]) ++
                     " is already in grain " ++ substDelim delimiter name },
        [], ctx.pendingGrains) := by
  have h1 : make_hashable [GVal.str s₁] ∅ = Except.ok {s₁.data.toFinset} := by
    simp [make_hashable]
  have h2 : make_hashable [GVal.str s₂] ∅ = Except.ok {s₂.data.toFinset} := by
    simp [make_hashable]
  refine ⟨h1, ?_, ?_, ?_⟩
  · simp [make_hashable]
  · intro acc hacc
    simp [make_hashable, hacc]
  · unfold list_present
    simp [hg, h1, h2, truthy, hchars]

/-- A concrete non-test context whose stored grain is the list `['ba']`. -/
def ctxRoles : GrainsCtx :=
  { get := fun _ => some (GVal.list [GVal.str "ba"])
    testMode := false
    setRet := fun n v _ =>
      { name := n, changes := Changes.added v, result := some true, comment := "" }
    pendingGrains := []
    appendRet := fun _ v => v
    getAfterAppend := fun _ v => v }

/-- C10 witness: the value `['ab']` is judged already present in the grain
`['ba']` with no store operation, while the nested `[['ab']]` contributes
nothing from an empty accumulator and everything from a nonempty one. -/
theorem make_hashable_charset_collapse_witness :
    make_hashable [GVal.str "ab"] ∅ = Except.ok {("ab").data.toFinset} ∧
    make_hashable [GVal.list [GVal.str "ab"]] ∅ = Except.ok ∅ ∧
    make_hashable [GVal.list [GVal.str "ab"]] {("x").data.toFinset} =
      Except.ok (insert ("ab").data.toFinset {("x").data.toFinset}) ∧
    list_present ctxRoles "roles" (GVal.list [GVal.str "ab"]) ":" =
      Except.ok ({ name := substDelim ":" "roles"
                   changes := Changes.empty
                   result := some true
                   comment := "Value " ++ pyStr (GVal.list [GVal.str "ab"]) ++
                     " is already in grain " ++ substDelim ":" "roles" },
        [], ctxRoles.pendingGrains) := by
  have h := make_hashable_charset_collapse ctxRoles "roles" ":" "ab" "ba" (by decide) rfl
  exact ⟨h.1, h.2.1, h.2.2.1 _ (by decide), h.2.2.2⟩

end Grains

end Salt
